import Mathlib

/-!
# Verification of the reaction-diffusion simulation (FitzHugh–Nagumo, Turing patterns)

Shallow embedding of the notebook `featured/05_turing.ipynb`.

A numpy 2-D array is modelled as a `Grid`: an explicit shape (`rows`, `cols`)
together with a total entry function `ℕ → ℕ → ℚ`.  Entries at out-of-bounds
indices are irrelevant junk carried by the total function.  Double-precision
floats are modelled by exact rationals.

The embedded operations, each translated from the corresponding notebook cell:
* `laplacian` — the five-point stencil (`def laplacian(Z)` cell);
* `Unew`, `Vnew` — the right-hand sides of the simultaneous interior update;
* `interiorAssign` — the slice assignment `Z[1:-1,1:-1] = X`;
* `setRowFrom` / `setColFrom` / `boundaryPass` — the four sequential Neumann
  boundary copies `Z[0,:]=Z[1,:]; Z[-1,:]=Z[-2,:]; Z[:,0]=Z[:,1]; Z[:,-1]=Z[:,-2]`;
* `step` — one iteration of the `for i in range(n)` loop body;
* `simulate` — the whole loop;
* `runScript` — the top-level script with the notebook's hard-coded literals
  lifted to a `Config` (the spec's configuration interface).
-/

/-- A 2-D numpy array: a shape together with a total entry function.
`entry i j` is the value at row `i`, column `j` when `i < rows` and `j < cols`. -/
structure Grid where
  rows : ℕ
  cols : ℕ
  entry : ℕ → ℕ → ℚ

/-- The five-point-stencil discrete Laplacian, from the notebook cell
```
def laplacian(Z):
    Ztop = Z[0:-2,1:-1]
    Zleft = Z[1:-1,0:-2]
    Zbottom = Z[2:,1:-1]
    Zright = Z[1:-1,2:]
    Zcenter = Z[1:-1,1:-1]
    return (Ztop + Zleft + Zbottom + Zright - 4 * Zcenter) / dx**2
```
The output has shape `(rows-2) × (cols-2)`; its entry at `(i, j)` reads
`Z` at `(i, j+1)`, `(i+1, j)`, `(i+2, j+1)`, `(i+1, j+2)` and `(i+1, j+1)`.
`dx` is the global space step of the enclosing configuration. -/
def laplacian (dx : ℚ) (Z : Grid) : Grid :=
  ⟨Z.rows - 2, Z.cols - 2, fun i j =>
    (Z.entry i (j+1) + Z.entry (i+1) j + Z.entry (i+2) (j+1) + Z.entry (i+1) (j+2)
      - 4 * Z.entry (i+1) (j+1)) / dx ^ 2⟩

/-- The model and discretization parameters: `a`, `b`, `tau`, `k` from the
parameter cell, and `dt`, `dx` from the discretization cells. -/
structure Params where
  a : ℚ
  b : ℚ
  tau : ℚ
  k : ℚ
  dt : ℚ
  dx : ℚ

/-- Right-hand side of `U`'s interior update, entry `(i, j)` of
`Uc + dt * (a * deltaU + Uc - Uc**3 - Vc + k)` where `Uc = U[1:-1,1:-1]`,
`Vc = V[1:-1,1:-1]`, `deltaU = laplacian(U)`. -/
def Unew (p : Params) (U V : Grid) (i j : ℕ) : ℚ :=
  U.entry (i+1) (j+1) + p.dt * (p.a * (laplacian p.dx U).entry i j
    + U.entry (i+1) (j+1) - U.entry (i+1) (j+1) ^ 3 - V.entry (i+1) (j+1) + p.k)

/-- Right-hand side of `V`'s interior update, entry `(i, j)` of
`Vc + dt * (b * deltaV + Uc - Vc) / tau`. -/
def Vnew (p : Params) (U V : Grid) (i j : ℕ) : ℚ :=
  V.entry (i+1) (j+1) + p.dt * (p.b * (laplacian p.dx V).entry i j
    + U.entry (i+1) (j+1) - V.entry (i+1) (j+1)) / p.tau

/-- The slice assignment `Z[1:-1,1:-1] = X`: interior cell `(i, j)` (with
`1 ≤ i ≤ rows-2`, `1 ≤ j ≤ cols-2`) receives `X (i-1) (j-1)`; every other
cell keeps its value. -/
def interiorAssign (X : ℕ → ℕ → ℚ) (Z : Grid) : Grid :=
  ⟨Z.rows, Z.cols, fun i j =>
    if 1 ≤ i ∧ i + 1 < Z.rows ∧ 1 ≤ j ∧ j + 1 < Z.cols
    then X (i-1) (j-1) else Z.entry i j⟩

/-- The simultaneous tuple assignment
`U[1:-1,1:-1], V[1:-1,1:-1] = rhsU, rhsV`: both right-hand sides are
evaluated on the pre-update `U`, `V` before either grid is written. -/
def interiorStep (p : Params) (U V : Grid) : Grid × Grid :=
  (interiorAssign (Unew p U V) U, interiorAssign (Vnew p U V) V)

/-- The row assignment `Z[dst,:] = Z[src,:]`. -/
def setRowFrom (dst src : ℕ) (Z : Grid) : Grid :=
  ⟨Z.rows, Z.cols, fun i j => if i = dst then Z.entry src j else Z.entry i j⟩

/-- The column assignment `Z[:,dst] = Z[:,src]`. -/
def setColFrom (dst src : ℕ) (Z : Grid) : Grid :=
  ⟨Z.rows, Z.cols, fun i j => if j = dst then Z.entry i src else Z.entry i j⟩

/-- The Neumann boundary pass, four sequential in-place copies in source order:
`Z[0,:] = Z[1,:]`, `Z[-1,:] = Z[-2,:]`, `Z[:,0] = Z[:,1]`, `Z[:,-1] = Z[:,-2]`. -/
def boundaryPass (Z : Grid) : Grid :=
  setColFrom (Z.cols - 1) (Z.cols - 2)
    (setColFrom 0 1 (setRowFrom (Z.rows - 1) (Z.rows - 2) (setRowFrom 0 1 Z)))

/-- One iteration of the simulation loop body: the simultaneous interior
update of both fields followed by the boundary pass on each. -/
def step (p : Params) (U V : Grid) : Grid × Grid :=
  (boundaryPass (interiorStep p U V).1, boundaryPass (interiorStep p U V).2)

/-- The simulation loop `for i in range(n)`: `n` iterations of `step`. -/
def simulate (p : Params) : ℕ → Grid × Grid → Grid × Grid
  | 0, UV => UV
  | n+1, UV => simulate p n (step p UV.1 UV.2)

/-- The run configuration described by the spec's external interface: grid
size and the scalar parameters; the notebook hard-codes
`size=100, T=10.0, a=2.8e-4, b=5e-3, tau=.1, k=-.005`. -/
structure Config where
  size : ℕ
  T : ℚ
  a : ℚ
  b : ℚ
  tau : ℚ
  k : ℚ

/-- `dx = 2./size` (space step over the domain `[-1,1]^2`).  At `size = 0`
the source expression raises `ZeroDivisionError` before any array is
initialized; that crash is modelled at the script level (`runScript`), which
signals it before this rational value (junk `2/0 = 0`) is ever consulted —
for `size ≥ 1` the value is the source's. -/
def Config.dx (c : Config) : ℚ := 2 / (c.size : ℚ)

/-- `dt = .9 * dx**2/2` (time step, chosen inside the stability bound). -/
def Config.dt (c : Config) : ℚ := 9/10 * c.dx ^ 2 / 2

/-- `n = int(T/dt)`: the iteration count; truncation of a negative quotient
and Python's `range` of a non-positive count both yield zero iterations. -/
def Config.niter (c : Config) : ℕ := ((c.T / c.dt).floor).toNat

/-- The `Params` record a configuration induces. -/
def Config.params (c : Config) : Params := ⟨c.a, c.b, c.tau, c.k, c.dt, c.dx⟩

/-- Error channel for the top-level script.  `invalidConfig` is the
condition the spec says is signaled; the source contains no validation, so
it is never produced.  The script's only failure paths are unchecked
runtime errors on degenerate grids: `zeroDivision` is Python's
`ZeroDivisionError` at `dx = 2./size` when `size = 0`, and `indexError` is
the `IndexError` raised by the boundary copy `Z[0,:] = Z[1,:]` reading the
absent row 1 of a 1×1 array. -/
inductive SimError where
  | invalidConfig
  | zeroDivision
  | indexError

/-- The top-level script, statement by statement:
* `dx = 2./size` — raises `ZeroDivisionError` when `size = 0`, before any
  array is initialized;
* `U = np.random.rand(size, size)`, `V = np.random.rand(size, size)` from
  the injected random sources;
* the loop for `n` iterations.  With `size = 1` and at least one iteration
  the first boundary copy `Z[0,:] = Z[1,:]` reads the absent row 1 and
  raises `IndexError` (with `n = 0` the loop body never runs and the script
  completes).  For `size ≥ 2` every slice read and boundary copy is in
  bounds and no statement can raise (numpy division of an array by the
  float `0.0`, as with `tau = 0`, warns and yields inf/nan rather than
  raising), so the script runs to completion.  No configuration check
  appears anywhere. -/
def runScript (c : Config) (randU randV : ℕ → ℕ → ℚ) : Except SimError (Grid × Grid) :=
  if c.size = 0 then Except.error SimError.zeroDivision
  else if c.size = 1 ∧ 1 ≤ c.niter then Except.error SimError.indexError
  else Except.ok (simulate c.params c.niter
    (⟨c.size, c.size, randU⟩, ⟨c.size, c.size, randV⟩))

/-! ## Basic entry/shape lemmas -/

@[simp] lemma laplacian_rows (dx : ℚ) (Z : Grid) : (laplacian dx Z).rows = Z.rows - 2 := rfl

@[simp] lemma laplacian_cols (dx : ℚ) (Z : Grid) : (laplacian dx Z).cols = Z.cols - 2 := rfl

lemma laplacian_entry (dx : ℚ) (Z : Grid) (i j : ℕ) :
    (laplacian dx Z).entry i j =
      (Z.entry i (j+1) + Z.entry (i+1) j + Z.entry (i+2) (j+1) + Z.entry (i+1) (j+2)
        - 4 * Z.entry (i+1) (j+1)) / dx ^ 2 := rfl

@[simp] lemma interiorAssign_rows (X : ℕ → ℕ → ℚ) (Z : Grid) :
    (interiorAssign X Z).rows = Z.rows := rfl

@[simp] lemma interiorAssign_cols (X : ℕ → ℕ → ℚ) (Z : Grid) :
    (interiorAssign X Z).cols = Z.cols := rfl

lemma interiorAssign_entry (X : ℕ → ℕ → ℚ) (Z : Grid) (i j : ℕ) :
    (interiorAssign X Z).entry i j =
      if 1 ≤ i ∧ i + 1 < Z.rows ∧ 1 ≤ j ∧ j + 1 < Z.cols
      then X (i-1) (j-1) else Z.entry i j := rfl

@[simp] lemma setRowFrom_rows (dst src : ℕ) (Z : Grid) : (setRowFrom dst src Z).rows = Z.rows := rfl

@[simp] lemma setRowFrom_cols (dst src : ℕ) (Z : Grid) : (setRowFrom dst src Z).cols = Z.cols := rfl

lemma setRowFrom_entry (dst src : ℕ) (Z : Grid) (i j : ℕ) :
    (setRowFrom dst src Z).entry i j = if i = dst then Z.entry src j else Z.entry i j := rfl

@[simp] lemma setColFrom_rows (dst src : ℕ) (Z : Grid) : (setColFrom dst src Z).rows = Z.rows := rfl

@[simp] lemma setColFrom_cols (dst src : ℕ) (Z : Grid) : (setColFrom dst src Z).cols = Z.cols := rfl

lemma setColFrom_entry (dst src : ℕ) (Z : Grid) (i j : ℕ) :
    (setColFrom dst src Z).entry i j = if j = dst then Z.entry i src else Z.entry i j := rfl

@[simp] lemma boundaryPass_rows (Z : Grid) : (boundaryPass Z).rows = Z.rows := rfl

@[simp] lemma boundaryPass_cols (Z : Grid) : (boundaryPass Z).cols = Z.cols := rfl

/-! ## C1: Laplacian formula and shape -/

/-- **C1.** For a square field `Z` of size `size × size` with `size ≥ 3`,
`laplacian Z` is a `(size-2) × (size-2)` array whose entry `(i-1, j-1)`,
for every interior index `1 ≤ i, j ≤ size-2`, equals
`(Z[i-1,j] + Z[i+1,j] + Z[i,j-1] + Z[i,j+1] - 4*Z[i,j]) / dx²`. -/
theorem laplacian_shape_and_formula (dx : ℚ) (Z : Grid) (size : ℕ)
    (hr : Z.rows = size) (hc : Z.cols = size) (hsz : 3 ≤ size)
    (i j : ℕ) (hi1 : 1 ≤ i) (hi2 : i ≤ size - 2) (hj1 : 1 ≤ j) (hj2 : j ≤ size - 2) :
    (laplacian dx Z).rows = size - 2 ∧ (laplacian dx Z).cols = size - 2 ∧
    (laplacian dx Z).entry (i-1) (j-1) =
      (Z.entry (i-1) j + Z.entry (i+1) j + Z.entry i (j-1) + Z.entry i (j+1)
        - 4 * Z.entry i j) / dx ^ 2 := by
  refine ⟨by simp [hr], by simp [hc], ?_⟩
  rw [laplacian_entry]
  have h1 : i - 1 + 1 = i := by omega
  have h2 : j - 1 + 1 = j := by omega
  have h3 : i - 1 + 2 = i + 1 := by omega
  have h4 : j - 1 + 2 = j + 1 := by omega
  rw [h1, h2, h3, h4]
  ring

/-- A concrete 3×3 test grid, `Z i j = i + 2j`. -/
def Zc1 : Grid := ⟨3, 3, fun i j => (i : ℚ) + 2 * j⟩

/-- Concrete instance of C1: the 3×3 grid `Zc1`, `dx = 1`, at the single
interior index `(1,1)`. -/
theorem laplacian_shape_and_formula_witness :
    (3 : ℕ) ≤ 3 ∧ (1 : ℕ) ≤ 1 ∧ (1 : ℕ) ≤ 3 - 2 ∧
    ((laplacian 1 Zc1).rows = 3 - 2 ∧ (laplacian 1 Zc1).cols = 3 - 2 ∧
     (laplacian 1 Zc1).entry (1-1) (1-1) =
       (Zc1.entry (1-1) 1 + Zc1.entry (1+1) 1 + Zc1.entry 1 (1-1) + Zc1.entry 1 (1+1)
         - 4 * Zc1.entry 1 1) / 1 ^ 2) :=
  ⟨by decide, by decide, by decide,
    laplacian_shape_and_formula 1 Zc1 3
      rfl rfl (by decide) 1 1 (by decide) (by decide) (by decide) (by decide)⟩

/-! ## Shape preservation through the loop -/

@[simp] lemma step_fst_rows (p : Params) (U V : Grid) : (step p U V).1.rows = U.rows := rfl

@[simp] lemma step_fst_cols (p : Params) (U V : Grid) : (step p U V).1.cols = U.cols := rfl

@[simp] lemma step_snd_rows (p : Params) (U V : Grid) : (step p U V).2.rows = V.rows := rfl

@[simp] lemma step_snd_cols (p : Params) (U V : Grid) : (step p U V).2.cols = V.cols := rfl

lemma simulate_shape (p : Params) : ∀ (n : ℕ) (UV : Grid × Grid),
    (simulate p n UV).1.rows = UV.1.rows ∧ (simulate p n UV).1.cols = UV.1.cols ∧
    (simulate p n UV).2.rows = UV.2.rows ∧ (simulate p n UV).2.cols = UV.2.cols
  | 0, _ => ⟨rfl, rfl, rfl, rfl⟩
  | n+1, UV => by
    have ih := simulate_shape p n (step p UV.1 UV.2)
    simpa [simulate] using ih

lemma simulate_succ (p : Params) : ∀ (n : ℕ) (UV : Grid × Grid),
    simulate p (n+1) UV = step p (simulate p n UV).1 (simulate p n UV).2
  | 0, UV => rfl
  | n+1, UV => by
    show simulate p (n+1+1) UV = _
    rw [show simulate p (n+1+1) UV = simulate p (n+1) (step p UV.1 UV.2) from rfl,
      simulate_succ p n (step p UV.1 UV.2)]
    rfl

/-! ## C6: Laplacian of an affine field is identically zero -/

/-- **C6.** For a field sampled from an affine function of the grid indices
(`Z i j = α·i + β·j + γ`, which is the form any affine `f(x,y)` takes when
sampled at the regularly spaced grid points), the discrete Laplacian is
exactly zero at every interior point, in exact rational arithmetic. -/
theorem laplacian_affine_zero (dx al be ga : ℚ) (size : ℕ) (Z : Grid)
    (hZ : ∀ i j : ℕ, Z.entry i j = al * i + be * j + ga)
    (i j : ℕ) (hi : i < size - 2) (hj : j < size - 2) :
    (laplacian dx Z).entry i j = 0 := by
  rw [laplacian_entry, hZ, hZ, hZ, hZ, hZ]
  apply div_eq_zero_iff.mpr
  left
  push_cast
  ring

/-- A concrete affine 5×5 grid, `Z i j = 2i + 3j + 1`. -/
def Zaffine : Grid := ⟨5, 5, fun i j => 2 * (i : ℚ) + 3 * j + 1⟩

/-- Concrete instance of C6: the affine grid `Zaffine`, interior index `(1,2)`. -/
theorem laplacian_affine_zero_witness :
    (1 : ℕ) < 5 - 2 ∧ (2 : ℕ) < 5 - 2 ∧ (laplacian (2/5) Zaffine).entry 1 2 = 0 :=
  ⟨by decide, by decide,
    laplacian_affine_zero (2/5) 2 3 1 5 Zaffine (fun i j => rfl) 1 2 (by decide) (by decide)⟩

/-! ## C7: the Laplacian has no side effects on its input -/

/-- The call `laplacian(Z)`, paired with the contents of the argument array
after the call returns.  The source body only reads slices of `Z` and builds
a fresh result array from them (there is no assignment into `Z`), so the
post-call contents of `Z` are its pre-call contents. -/
def laplacianCall (dx : ℚ) (Z : Grid) : Grid × Grid := (laplacian dx Z, Z)

/-- A 3×3 grid that is zero except at the boundary cell `(0,1)`. -/
def gBoundary : Grid := ⟨3, 3, fun i j => if i = 0 ∧ j = 1 then 1 else 0⟩

/-- The all-zero 3×3 grid. -/
def gZero : Grid := ⟨3, 3, fun _ _ => 0⟩

/-- **C7.** `laplacian` never writes to its input: the input array is
identical before and after the call, for every input.  Moreover the boundary
cells really are read (not ignored): two grids that differ only at the
boundary cell `(0,1)` produce different Laplacian values at the adjacent
interior point. -/
theorem laplacian_no_side_effects :
    (∀ (dx : ℚ) (Z : Grid), (laplacianCall dx Z).2 = Z) ∧
    (∀ i j, ¬(i = 0 ∧ j = 1) → gBoundary.entry i j = gZero.entry i j) ∧
    (laplacianCall 1 gBoundary).1.entry 0 0 ≠ (laplacianCall 1 gZero).1.entry 0 0 := by
  refine ⟨fun dx Z => rfl, ?_, ?_⟩
  · intro i j h
    simp only [gBoundary, gZero, if_neg h]
  · norm_num [laplacianCall, laplacian_entry, gBoundary, gZero]

/-- Concrete instance of C7. -/
theorem laplacian_no_side_effects_witness :
    (laplacianCall 1 gBoundary).2 = gBoundary ∧ gBoundary.entry 2 2 = gZero.entry 2 2 :=
  ⟨laplacian_no_side_effects.1 1 gBoundary,
    laplacian_no_side_effects.2.1 2 2 (by decide)⟩

/-! ## C5: invalid configurations are not rejected -/

/-- The constant-zero random source. -/
def zeroRand : ℕ → ℕ → ℚ := fun _ _ => 0

/-- An invalid configuration: grid size 2 (< 3). -/
def badCfgSize : Config := ⟨2, 10, 0, 0, 1, 0⟩

/-- An invalid configuration: `tau = 0`. -/
def badCfgTau : Config := ⟨5, 10, 0, 0, 0, 0⟩

/-- **C5, counterexample.** The script contains no validation: with grid
size 2 (< 3), and likewise with `tau = 0`, no invalid-configuration
condition is signaled — the script initializes the arrays, runs its
iterations, and returns normally. -/
theorem invalid_config_not_rejected :
    runScript badCfgSize zeroRand zeroRand ≠ Except.error SimError.invalidConfig ∧
    runScript badCfgTau zeroRand zeroRand ≠ Except.error SimError.invalidConfig := by
  constructor <;> intro h <;>
    simp [runScript, badCfgSize, badCfgTau] at h

/-- **C5, amended.** The code performs no configuration validation: no
invalid-configuration condition is ever signaled, for any configuration.
Every configuration with `size ≥ 2` — including the invalid `size = 2`,
`tau = 0` or negative `T` — initializes the two `size × size` fields, runs
all its iterations, and returns the final fields normally; the only
failures anywhere are unchecked runtime errors on degenerate grids
(division by zero computing `dx` at `size = 0`, an out-of-bounds row read
in the first boundary pass at `size = 1` with at least one iteration),
which are not invalid-configuration signals either. -/
theorem no_config_validation :
    (∀ (c : Config) (rU rV : ℕ → ℕ → ℚ),
      runScript c rU rV ≠ Except.error SimError.invalidConfig) ∧
    (∀ (c : Config) (rU rV : ℕ → ℕ → ℚ), 2 ≤ c.size →
      ∃ UV, runScript c rU rV = Except.ok UV ∧
        UV.1.rows = c.size ∧ UV.1.cols = c.size ∧
        UV.2.rows = c.size ∧ UV.2.cols = c.size) := by
  constructor
  · intro c rU rV h
    rw [runScript] at h
    split_ifs at h <;> simp at h
  · intro c rU rV hsz
    have h0 : ¬ c.size = 0 := by omega
    have h1 : ¬ (c.size = 1 ∧ 1 ≤ c.niter) := by
      rintro ⟨h, _⟩
      omega
    rw [runScript, if_neg h0, if_neg h1]
    refine ⟨_, rfl, ?_⟩
    exact simulate_shape c.params c.niter (⟨c.size, c.size, rU⟩, ⟨c.size, c.size, rV⟩)

/-- Concrete instance of the amended C5 at the invalid size-2
configuration. -/
theorem no_config_validation_witness :
    (2 : ℕ) ≤ badCfgSize.size ∧
    runScript badCfgSize zeroRand zeroRand ≠ Except.error SimError.invalidConfig ∧
    (∃ UV, runScript badCfgSize zeroRand zeroRand = Except.ok UV ∧
      UV.1.rows = badCfgSize.size ∧ UV.1.cols = badCfgSize.size ∧
      UV.2.rows = badCfgSize.size ∧ UV.2.cols = badCfgSize.size) :=
  ⟨by decide, no_config_validation.1 badCfgSize zeroRand zeroRand,
    no_config_validation.2 badCfgSize zeroRand zeroRand (by decide)⟩

/-! ## C2: the Neumann boundary invariant -/

/-- The boundary invariant: row 0 equals row 1, row `size-1` equals row
`size-2`, column 0 equals column 1, column `size-1` equals column `size-2`. -/
def BoundaryInv (size : ℕ) (Z : Grid) : Prop :=
  (∀ j, j < size → Z.entry 0 j = Z.entry 1 j ∧
    Z.entry (size-1) j = Z.entry (size-2) j) ∧
  (∀ i, i < size → Z.entry i 0 = Z.entry i 1 ∧
    Z.entry i (size-1) = Z.entry i (size-2))

lemma boundaryPass_inv (size : ℕ) (Z : Grid)
    (hr : Z.rows = size) (hc : Z.cols = size) (hsz : 3 ≤ size) :
    BoundaryInv size (boundaryPass Z) := by
  constructor <;> intro t ht <;> constructor <;>
    · simp only [boundaryPass, setColFrom_entry, setRowFrom_entry, hr, hc]
      split_ifs <;> first | rfl | omega

lemma simulate_succ_inv (size : ℕ) (p : Params) (U V : Grid)
    (hUr : U.rows = size) (hUc : U.cols = size)
    (hVr : V.rows = size) (hVc : V.cols = size)
    (hsz : 3 ≤ size) (n : ℕ) :
    BoundaryInv size (simulate p (n+1) (U, V)).1 ∧
    BoundaryInv size (simulate p (n+1) (U, V)).2 := by
  rw [simulate_succ]
  obtain ⟨h1, h2, h3, h4⟩ := simulate_shape p n (U, V)
  exact ⟨boundaryPass_inv size _ (by simp [interiorStep, h1, hUr])
      (by simp [interiorStep, h2, hUc]) hsz,
    boundaryPass_inv size _ (by simp [interiorStep, h3, hVr])
      (by simp [interiorStep, h4, hVc]) hsz⟩

/-- **C2.** After every iteration's boundary pass — that is, at the end of
each of the `n+1` iterations of the loop — both fields satisfy the boundary
invariant: row 0 equals row 1, row `size-1` equals row `size-2`, column 0
equals column 1 and column `size-1` equals column `size-2`, exactly. -/
theorem boundary_inv_every_iteration (size : ℕ) (p : Params) (U V : Grid)
    (hUr : U.rows = size) (hUc : U.cols = size)
    (hVr : V.rows = size) (hVc : V.cols = size)
    (hsz : 3 ≤ size) :
    ∀ m, 1 ≤ m →
      BoundaryInv size (simulate p m (U, V)).1 ∧
      BoundaryInv size (simulate p m (U, V)).2 := by
  intro m h1
  obtain ⟨m', rfl⟩ : ∃ m', m = m' + 1 := ⟨m - 1, by omega⟩
  exact simulate_succ_inv size p U V hUr hUc hVr hVc hsz m'

/-- A concrete parameter set for witnesses: `a=0, b=0, tau=1, k=0, dt=1, dx=1`. -/
def Pc : Params := ⟨0, 0, 1, 0, 1, 1⟩

/-- Concrete instance of C2: size 3, one iteration, the row-0/row-1 equality
of the `U` field at column 0. -/
theorem boundary_inv_every_iteration_witness :
    Zc1.rows = 3 ∧ (3 : ℕ) ≤ 3 ∧ (1 : ℕ) ≤ 1 ∧
    (simulate Pc 1 (Zc1, Zc1)).1.entry 0 0 = (simulate Pc 1 (Zc1, Zc1)).1.entry 1 0 :=
  ⟨rfl, by decide, by decide,
    ((boundary_inv_every_iteration 3 Pc Zc1 Zc1 rfl rfl rfl rfl (by decide)
      1 (by decide)).1.1 0 (by decide)).1⟩

/-! ## C9: corner cells equal their diagonal interior neighbors -/

/-- The corner property: each corner equals its diagonal interior neighbor
(a consequence of the column copies running after the row copies). -/
def CornerInv (size : ℕ) (Z : Grid) : Prop :=
  Z.entry 0 0 = Z.entry 1 1 ∧
  Z.entry 0 (size-1) = Z.entry 1 (size-2) ∧
  Z.entry (size-1) 0 = Z.entry (size-2) 1 ∧
  Z.entry (size-1) (size-1) = Z.entry (size-2) (size-2)

lemma boundaryPass_corner (size : ℕ) (Z : Grid)
    (hr : Z.rows = size) (hc : Z.cols = size) (hsz : 3 ≤ size) :
    CornerInv size (boundaryPass Z) := by
  refine ⟨?_, ?_, ?_, ?_⟩ <;>
    · simp only [boundaryPass, setColFrom_entry, setRowFrom_entry, hr, hc]
      split_ifs <;> first | rfl | omega

/-- **C9.** After every iteration's boundary pass, because the column copies
run after the row copies, each corner cell of both fields equals its diagonal
interior neighbor: `Z[0,0] = Z[1,1]`, `Z[0,size-1] = Z[1,size-2]`,
`Z[size-1,0] = Z[size-2,1]`, `Z[size-1,size-1] = Z[size-2,size-2]`. -/
theorem corner_inv_every_iteration (size : ℕ) (p : Params) (U V : Grid)
    (hUr : U.rows = size) (hUc : U.cols = size)
    (hVr : V.rows = size) (hVc : V.cols = size)
    (hsz : 3 ≤ size) :
    ∀ m, 1 ≤ m →
      CornerInv size (simulate p m (U, V)).1 ∧
      CornerInv size (simulate p m (U, V)).2 := by
  intro m h1
  obtain ⟨m', rfl⟩ : ∃ m', m = m' + 1 := ⟨m - 1, by omega⟩
  rw [simulate_succ]
  obtain ⟨h1, h2, h3, h4⟩ := simulate_shape p m' (U, V)
  exact ⟨boundaryPass_corner size _ (by simp [interiorStep, h1, hUr])
      (by simp [interiorStep, h2, hUc]) hsz,
    boundaryPass_corner size _ (by simp [interiorStep, h3, hVr])
      (by simp [interiorStep, h4, hVc]) hsz⟩

/-- Concrete instance of C9: size 3, one iteration, the `(0,0) = (1,1)`
corner equality of the `V` field. -/
theorem corner_inv_every_iteration_witness :
    Zc1.cols = 3 ∧ (3 : ℕ) ≤ 3 ∧ (1 : ℕ) ≤ 1 ∧
    (simulate Pc 1 (Zc1, Zc1)).2.entry 0 0 = (simulate Pc 1 (Zc1, Zc1)).2.entry 1 1 :=
  ⟨rfl, by decide, by decide,
    (corner_inv_every_iteration 3 Pc Zc1 Zc1 rfl rfl rfl rfl (by decide)
      1 (by decide)).2.1⟩

/-! ## C3: effect of perturbing V's pre-update value at one interior cell -/

/-- The 3×3 grid that is zero except at the interior cell `(1,1)`. -/
def gPert : Grid := ⟨3, 3, fun i j => if i = 1 ∧ j = 1 then 1 else 0⟩

/-- `gPert` and `gZero` differ only at the interior cell `(1,1)`. -/
lemma gPert_agree_off_center :
    ∀ i j, ¬(i = 1 ∧ j = 1) → gPert.entry i j = gZero.entry i j := by
  intro i j h
  simp only [gPert, gZero, if_neg h]

/-- **C3, counterexample.** Perturbing `V`'s pre-update value at the single
interior cell `(1,1)` (with `gZero` vs `gPert`, which by
`gPert_agree_off_center` differ only there) *does* change `U`'s updated
value at that cell: the `U` update subtracts `Vc`, the pre-update `V` at the
same cell. -/
theorem sync_update_counterexample :
    (step Pc gZero gZero).1.entry 1 1 ≠ (step Pc gZero gPert).1.entry 1 1 := by
  norm_num [step, interiorStep, boundaryPass, setColFrom_entry, setRowFrom_entry,
    interiorAssign_entry, Unew, laplacian_entry, Pc, gZero, gPert]

/-- **C3, amended.** For one interior update, perturbing only `V`'s
pre-update value at a single interior cell `(i0, j0)` affects `U`'s updated
value *only at that cell* (through the `-Vc` term): `U`'s update at every
other cell is unchanged; and `V`'s update is unchanged except at `(i0, j0)`
itself and its four Laplacian-neighbor cells. -/
theorem sync_update_locality (p : Params) (size : ℕ) (U V Vp : Grid)
    (hVr : V.rows = size) (hVc : V.cols = size)
    (hVpr : Vp.rows = size) (hVpc : Vp.cols = size)
    (i0 j0 : ℕ) (hi0 : 1 ≤ i0) (hi0b : i0 + 1 < size)
    (hj0 : 1 ≤ j0) (hj0b : j0 + 1 < size)
    (hagree : ∀ i j, ¬(i = i0 ∧ j = j0) → Vp.entry i j = V.entry i j) :
    (∀ i j, ¬(i = i0 ∧ j = j0) →
      (interiorStep p U Vp).1.entry i j = (interiorStep p U V).1.entry i j) ∧
    (∀ i j, ¬(i = i0 ∧ j = j0) → ¬(i + 1 = i0 ∧ j = j0) → ¬(i = i0 + 1 ∧ j = j0) →
      ¬(i = i0 ∧ j + 1 = j0) → ¬(i = i0 ∧ j = j0 + 1) →
      (interiorStep p U Vp).2.entry i j = (interiorStep p U V).2.entry i j) := by
  constructor
  · intro i j h
    simp only [interiorStep, interiorAssign_entry]
    split_ifs with hin
    · have e1 : i - 1 + 1 = i := by omega
      have e2 : j - 1 + 1 = j := by omega
      simp only [Unew, e1, e2]
      rw [hagree i j h]
    · rfl
  · intro i j h h1 h2 h3 h4
    simp only [interiorStep, interiorAssign_entry, hVr, hVc, hVpr, hVpc]
    split_ifs with hin
    · have e1 : i - 1 + 1 = i := by omega
      have e2 : j - 1 + 1 = j := by omega
      have e3 : i - 1 + 2 = i + 1 := by omega
      have e4 : j - 1 + 2 = j + 1 := by omega
      simp only [Vnew, laplacian_entry, e1, e2, e3, e4]
      rw [hagree i j h, hagree (i-1) j (by omega), hagree (i+1) j (by omega),
        hagree i (j-1) (by omega), hagree i (j+1) (by omega)]
    · exact hagree i j h

/-- The 5×5 all-zero grid. -/
def gZero5 : Grid := ⟨5, 5, fun _ _ => 0⟩

/-- The 5×5 grid that is zero except at the interior cell `(2,2)`. -/
def gPert5 : Grid := ⟨5, 5, fun i j => if i = 2 ∧ j = 2 then 1 else 0⟩

/-- Concrete instance of the amended C3: perturbation at `(2,2)` of a 5×5
grid leaves both interior updates unchanged at cell `(1,1)` (a diagonal,
hence non-Laplacian, neighbor). -/
theorem sync_update_locality_witness :
    (1 : ℕ) ≤ 2 ∧ (2 : ℕ) + 1 < 5 ∧
    (interiorStep Pc gZero5 gPert5).1.entry 1 1 = (interiorStep Pc gZero5 gZero5).1.entry 1 1 ∧
    (interiorStep Pc gZero5 gPert5).2.entry 1 1 = (interiorStep Pc gZero5 gZero5).2.entry 1 1 := by
  have hagree : ∀ i j, ¬(i = 2 ∧ j = 2) → gPert5.entry i j = gZero5.entry i j := by
    intro i j h
    simp only [gPert5, gZero5, if_neg h]
  have main := sync_update_locality Pc 5 gZero5 gZero5 gPert5 rfl rfl rfl rfl
    2 2 (by decide) (by decide) (by decide) (by decide) hagree
  exact ⟨by decide, by decide,
    main.1 1 1 (by decide),
    main.2 1 1 (by decide) (by decide) (by decide) (by decide) (by decide)⟩

/-! ## C4: the constant-half scenario -/

/-- The 5×5 grid constant at `1/2`. -/
def constHalf : Grid := ⟨5, 5, fun _ _ => (1 : ℚ)/2⟩

/-- The scenario parameters: `a = b = 0`, `tau = 1`, `k = 0`, `dx = 2/5`
(the `size = 5` space step), and a caller-chosen `dt`. -/
def Pc4 (dt : ℚ) : Params := ⟨0, 0, 1, 0, dt, 2/5⟩

/-- **C4, counterexample.** In the constant-half scenario with
`dt = 1/100` (positive and within the stability bound `dx²/2`), one
iteration does *not* change interior `U` by `+ dt * 0.375`: the update also
subtracts `Vc = 1/2`, so the actual interior value is `1/2 - dt/8`, not
`1/2 + dt * 3/8`. -/
theorem scenario_const_counterexample :
    (0 : ℚ) < 1/100 ∧ (1 : ℚ)/100 ≤ (2/5)^2/2 ∧
    (step (Pc4 (1/100)) constHalf constHalf).1.entry 2 2 ≠ 1/2 + (1/100) * (3/8) := by
  refine ⟨by norm_num, by norm_num, ?_⟩
  norm_num [step, interiorStep, boundaryPass, setColFrom_entry, setRowFrom_entry,
    interiorAssign_entry, Unew, laplacian_entry, Pc4, constHalf]

/-- **C4, amended.** For the size-5 grid with both fields constant `1/2`,
parameters `a = b = 0`, `k = 0`, `tau = 1` and any positive `dt` within the
stability bound: the Laplacian is zero everywhere, one iteration leaves `V`
unchanged, and changes interior `U` only by the reaction term
`dt * (Uc - Uc³ - Vc) = dt * (1/2 - 1/8 - 1/2)`, i.e. to `1/2 - dt/8`. -/
theorem scenario_const_amended (dt : ℚ) (hpos : 0 < dt) (hstab : dt ≤ (2/5)^2/2) :
    (∀ i j, (laplacian (2/5) constHalf).entry i j = 0) ∧
    (∀ i j, (step (Pc4 dt) constHalf constHalf).2.entry i j = 1/2) ∧
    (∀ i j, 1 ≤ i → i + 1 < 5 → 1 ≤ j → j + 1 < 5 →
      (step (Pc4 dt) constHalf constHalf).1.entry i j = 1/2 - dt/8) := by
  refine ⟨?_, ?_, ?_⟩
  · intro i j
    norm_num [laplacian_entry, constHalf]
  · have hall : ∀ i j,
        (interiorAssign (Vnew (Pc4 dt) constHalf constHalf) constHalf).entry i j = 1/2 := by
      intro i j
      rw [interiorAssign_entry]
      split_ifs with h
      · norm_num [Vnew, laplacian_entry, constHalf, Pc4]
      · rfl
    intro i j
    simp only [step, interiorStep, boundaryPass, setColFrom_entry, setRowFrom_entry]
    split_ifs <;> exact hall _ _
  · intro i j hi hib hj hjb
    simp only [step, interiorStep, boundaryPass, setColFrom_entry, setRowFrom_entry,
      interiorAssign_rows, interiorAssign_cols, constHalf]
    rw [if_neg (by omega), if_neg (by omega), if_neg (by omega), if_neg (by omega),
      interiorAssign_entry, if_pos]
    · have e1 : i - 1 + 1 = i := by omega
      have e2 : j - 1 + 1 = j := by omega
      simp only [Unew, laplacian_entry, e1, e2, Pc4]
      norm_num
      ring
    · refine ⟨hi, ?_, hj, ?_⟩ <;> simpa using by omega

/-- Concrete instance of the amended C4 at `dt = 1/100`. -/
theorem scenario_const_amended_witness :
    (0 : ℚ) < 1/100 ∧ (1 : ℚ)/100 ≤ (2/5)^2/2 ∧
    (laplacian (2/5) constHalf).entry 0 0 = 0 ∧
    (step (Pc4 (1/100)) constHalf constHalf).2.entry 0 0 = 1/2 ∧
    (step (Pc4 (1/100)) constHalf constHalf).1.entry 2 2 = 1/2 - (1/100)/8 :=
  ⟨by norm_num, by norm_num,
    (scenario_const_amended (1/100) (by norm_num) (by norm_num)).1 0 0,
    (scenario_const_amended (1/100) (by norm_num) (by norm_num)).2.1 0 0,
    (scenario_const_amended (1/100) (by norm_num) (by norm_num)).2.2 2 2
      (by decide) (by decide) (by decide) (by decide)⟩

/-! ## C10: which parameters each field's update depends on -/

/-- **C10.** Within a single iteration, the updated `U` field is a function
only of the pre-update fields and `a`, `k`, `dt`, `dx`: changing `b` or
`tau` (the only other parameters) leaves every entry of updated `U`
unchanged.  Symmetrically, the updated `V` field depends only on `b`, `tau`,
`dt`, `dx`: changing `a` or `k` leaves every entry of updated `V` unchanged. -/
theorem step_param_independence (p q : Params) (U V : Grid) :
    (p.a = q.a → p.k = q.k → p.dt = q.dt → p.dx = q.dx →
      ∀ i j, (step p U V).1.entry i j = (step q U V).1.entry i j) ∧
    (p.b = q.b → p.tau = q.tau → p.dt = q.dt → p.dx = q.dx →
      ∀ i j, (step p U V).2.entry i j = (step q U V).2.entry i j) := by
  constructor
  · intro ha hk hdt hdx i j
    have hU : Unew p U V = Unew q U V := by
      funext x y
      simp only [Unew, laplacian_entry, ha, hk, hdt, hdx]
    simp only [step, interiorStep, hU]
  · intro hb htau hdt hdx i j
    have hV : Vnew p U V = Vnew q U V := by
      funext x y
      simp only [Vnew, laplacian_entry, hb, htau, hdt, hdx]
    simp only [step, interiorStep, hV]

/-- Parameters that agree with `Pc` on `a`, `k`, `dt`, `dx` but differ in
`b` and `tau`. -/
def Qc : Params := ⟨0, 7, 3, 0, 1, 1⟩

/-- Parameters that agree with `Pc` on `b`, `tau`, `dt`, `dx` but differ in
`a` and `k`. -/
def Rc : Params := ⟨5, 0, 1, 9, 1, 1⟩

/-- Concrete instance of C10: varying `b, tau` (resp. `a, k`) leaves the
updated `U` (resp. `V`) entry at `(1,1)` unchanged. -/
theorem step_param_independence_witness :
    Pc.a = Qc.a ∧ Pc.b = Rc.b ∧
    (step Pc gZero gPert).1.entry 1 1 = (step Qc gZero gPert).1.entry 1 1 ∧
    (step Pc gZero gPert).2.entry 1 1 = (step Rc gZero gPert).2.entry 1 1 :=
  ⟨rfl, rfl,
    (step_param_independence Pc Qc gZero gPert).1 rfl rfl rfl rfl 1 1,
    (step_param_independence Pc Rc gZero gPert).2 rfl rfl rfl rfl 1 1⟩

/-! ## C8: determinism -/

/-- Agreement of two grids on all in-bounds entries of a `size × size`
square. -/
def AgreeOn (size : ℕ) (Y Z : Grid) : Prop :=
  ∀ i j, i < size → j < size → Y.entry i j = Z.entry i j

lemma Unew_agree (p : Params) (size : ℕ) (U Up V Vp : Grid)
    (hU : AgreeOn size U Up) (hV : AgreeOn size V Vp)
    (i j : ℕ) (hi : i + 2 < size) (hj : j + 2 < size) :
    Unew p U V i j = Unew p Up Vp i j := by
  simp only [Unew, laplacian_entry]
  rw [hU (i+1) (j+1) (by omega) (by omega), hV (i+1) (j+1) (by omega) (by omega),
    hU i (j+1) (by omega) (by omega), hU (i+1) j (by omega) (by omega),
    hU (i+2) (j+1) (by omega) (by omega), hU (i+1) (j+2) (by omega) (by omega)]

lemma Vnew_agree (p : Params) (size : ℕ) (U Up V Vp : Grid)
    (hU : AgreeOn size U Up) (hV : AgreeOn size V Vp)
    (i j : ℕ) (hi : i + 2 < size) (hj : j + 2 < size) :
    Vnew p U V i j = Vnew p Up Vp i j := by
  simp only [Vnew, laplacian_entry]
  rw [hU (i+1) (j+1) (by omega) (by omega), hV (i+1) (j+1) (by omega) (by omega),
    hV i (j+1) (by omega) (by omega), hV (i+1) j (by omega) (by omega),
    hV (i+2) (j+1) (by omega) (by omega), hV (i+1) (j+2) (by omega) (by omega)]

lemma interiorStep_agree (p : Params) (size : ℕ) (U V Up Vp : Grid)
    (hUr : U.rows = size) (hUc : U.cols = size)
    (hUpr : Up.rows = size) (hUpc : Up.cols = size)
    (hVr : V.rows = size) (hVc : V.cols = size)
    (hVpr : Vp.rows = size) (hVpc : Vp.cols = size)
    (hU : AgreeOn size U Up) (hV : AgreeOn size V Vp) :
    AgreeOn size (interiorStep p U V).1 (interiorStep p Up Vp).1 ∧
    AgreeOn size (interiorStep p U V).2 (interiorStep p Up Vp).2 := by
  constructor
  · intro i j hi hj
    simp only [interiorStep, interiorAssign_entry, hUr, hUc, hUpr, hUpc]
    split_ifs with h
    · exact Unew_agree p size U Up V Vp hU hV (i-1) (j-1) (by omega) (by omega)
    · exact hU i j hi hj
  · intro i j hi hj
    simp only [interiorStep, interiorAssign_entry, hVr, hVc, hVpr, hVpc]
    split_ifs with h
    · exact Vnew_agree p size U Up V Vp hU hV (i-1) (j-1) (by omega) (by omega)
    · exact hV i j hi hj

lemma boundaryPass_agree (size : ℕ) (Y Z : Grid)
    (hYr : Y.rows = size) (hYc : Y.cols = size)
    (hZr : Z.rows = size) (hZc : Z.cols = size)
    (hsz : 3 ≤ size) (h : AgreeOn size Y Z) :
    AgreeOn size (boundaryPass Y) (boundaryPass Z) := by
  intro i j hi hj
  simp only [boundaryPass, setColFrom_entry, setRowFrom_entry, hYr, hYc, hZr, hZc]
  split_ifs <;> apply h <;> omega

lemma step_agree (p : Params) (size : ℕ) (U V Up Vp : Grid)
    (hUr : U.rows = size) (hUc : U.cols = size)
    (hVr : V.rows = size) (hVc : V.cols = size)
    (hUpr : Up.rows = size) (hUpc : Up.cols = size)
    (hVpr : Vp.rows = size) (hVpc : Vp.cols = size)
    (hsz : 3 ≤ size)
    (hU : AgreeOn size U Up) (hV : AgreeOn size V Vp) :
    AgreeOn size (step p U V).1 (step p Up Vp).1 ∧
    AgreeOn size (step p U V).2 (step p Up Vp).2 := by
  have hint := interiorStep_agree p size U V Up Vp hUr hUc hUpr hUpc hVr hVc hVpr hVpc hU hV
  exact ⟨boundaryPass_agree size _ _ (by simp [interiorStep, hUr]) (by simp [interiorStep, hUc])
      (by simp [interiorStep, hUpr]) (by simp [interiorStep, hUpc]) hsz hint.1,
    boundaryPass_agree size _ _ (by simp [interiorStep, hVr]) (by simp [interiorStep, hVc])
      (by simp [interiorStep, hVpr]) (by simp [interiorStep, hVpc]) hsz hint.2⟩

lemma simulate_agree (p : Params) (size : ℕ) (hsz : 3 ≤ size) :
    ∀ (n : ℕ) (U V Up Vp : Grid),
      U.rows = size → U.cols = size → V.rows = size → V.cols = size →
      Up.rows = size → Up.cols = size → Vp.rows = size → Vp.cols = size →
      AgreeOn size U Up → AgreeOn size V Vp →
      AgreeOn size (simulate p n (U, V)).1 (simulate p n (Up, Vp)).1 ∧
      AgreeOn size (simulate p n (U, V)).2 (simulate p n (Up, Vp)).2
  | 0, U, V, Up, Vp => fun _ _ _ _ _ _ _ _ hU hV => ⟨hU, hV⟩
  | n+1, U, V, Up, Vp => by
    intro h1 h2 h3 h4 h5 h6 h7 h8 hU hV
    have hstep := step_agree p size U V Up Vp h1 h2 h3 h4 h5 h6 h7 h8 hsz hU hV
    have ih := simulate_agree p size hsz n (step p U V).1 (step p U V).2
      (step p Up Vp).1 (step p Up Vp).2
      (by simp [h1]) (by simp [h2]) (by simp [h3]) (by simp [h4])
      (by simp [h5]) (by simp [h6]) (by simp [h7]) (by simp [h8])
      hstep.1 hstep.2
    exact ih

/-- **C8.** Two runs with the same configuration whose injected random
sources agree on every in-bounds draw (hence the same initial `U` and `V`)
produce identical final field arrays: same shapes and the same value at
every in-bounds entry, for every iteration count the configuration induces. -/
theorem run_deterministic (c : Config) (rU rV rU2 rV2 : ℕ → ℕ → ℚ)
    (hsz : 3 ≤ c.size)
    (hU : ∀ i j, i < c.size → j < c.size → rU i j = rU2 i j)
    (hV : ∀ i j, i < c.size → j < c.size → rV i j = rV2 i j) :
    ∀ P Q, runScript c rU rV = Except.ok P → runScript c rU2 rV2 = Except.ok Q →
      P.1.rows = Q.1.rows ∧ P.1.cols = Q.1.cols ∧
      P.2.rows = Q.2.rows ∧ P.2.cols = Q.2.cols ∧
      AgreeOn c.size P.1 Q.1 ∧ AgreeOn c.size P.2 Q.2 := by
  intro P Q hP hQ
  have h0 : ¬ c.size = 0 := by omega
  have h1 : ¬ (c.size = 1 ∧ 1 ≤ c.niter) := by
    rintro ⟨h, _⟩
    omega
  rw [runScript, if_neg h0, if_neg h1] at hP hQ
  simp only [Except.ok.injEq] at hP hQ
  subst hP
  subst hQ
  obtain ⟨s1, s2, s3, s4⟩ :=
    simulate_shape c.params c.niter (⟨c.size, c.size, rU⟩, ⟨c.size, c.size, rV⟩)
  obtain ⟨t1, t2, t3, t4⟩ :=
    simulate_shape c.params c.niter (⟨c.size, c.size, rU2⟩, ⟨c.size, c.size, rV2⟩)
  have hag := simulate_agree c.params c.size hsz c.niter
    ⟨c.size, c.size, rU⟩ ⟨c.size, c.size, rV⟩ ⟨c.size, c.size, rU2⟩ ⟨c.size, c.size, rV2⟩
    rfl rfl rfl rfl rfl rfl rfl rfl
    (fun i j hi hj => hU i j hi hj) (fun i j hi hj => hV i j hi hj)
  exact ⟨by rw [s1, t1], by rw [s2, t2], by rw [s3, t3], by rw [s4, t4], hag.1, hag.2⟩

/-- A concrete witness configuration: size 3, `T = 1`, `tau = 1`. -/
def cW : Config := ⟨3, 1, 0, 0, 1, 0⟩

/-- A concrete random source. -/
def rW : ℕ → ℕ → ℚ := fun i j => i + j

/-- A random source that agrees with `rW` on every in-bounds draw of a 3×3
grid but differs out of bounds. -/
def rW2 : ℕ → ℕ → ℚ := fun i j => if 5 ≤ i then 99 else i + j

/-- The final fields of the first witness run. -/
def wPair : Grid × Grid :=
  simulate cW.params cW.niter (⟨cW.size, cW.size, rW⟩, ⟨cW.size, cW.size, rW⟩)

/-- The final fields of the second witness run (`rW2` as the `U` source). -/
def wPair2 : Grid × Grid :=
  simulate cW.params cW.niter (⟨cW.size, cW.size, rW2⟩, ⟨cW.size, cW.size, rW⟩)

/-- Concrete instance of C8: two runs from sources that agree on every
in-bounds draw give the same final `U` entry at `(1,1)`. -/
theorem run_deterministic_witness :
    (3 : ℕ) ≤ cW.size ∧ rW 1 1 = rW2 1 1 ∧
    wPair.1.entry 1 1 = wPair2.1.entry 1 1 := by
  have hU : ∀ i j, i < cW.size → j < cW.size → rW i j = rW2 i j := by
    intro i j hi hj
    have hi3 : i < 3 := hi
    simp only [rW, rW2]
    rw [if_neg (by omega)]
  have main := run_deterministic cW rW rW rW2 rW (by decide) hU
    (fun i j hi hj => rfl) wPair wPair2 rfl rfl
  exact ⟨by decide, hU 1 1 (by decide) (by decide),
    main.2.2.2.2.1 1 1 (by decide) (by decide)⟩
